import Mathlib

/-!
# Verification of the vigil argument-interpretation and session-orchestration engine

Shallow embedding of the Rust sources of the `vigil` tool (persistent remote
tmux sessions over SSH).  Pure argument-vector and string computations are
translated directly; external collaborators (process spawning, shell lexing,
line input) are modelled as explicit inputs.

Source files embedded:
- `src/util.rs`   : `shell_escape`
- `src/cli.rs` / `src/main.rs` : the argument hoister (`parse_with_fallback` /
  `parse_args`; the two copies are token-for-token identical)
- `src/ssh.rs`    : `exec_remote_command`, `exec_remote_capture` (argument
  vector construction and result classification)
- `src/tmux.rs`   : `build_session_command`, `list_remote_sessions`,
  `kill_remote_session`
- `src/main.rs`   : the legacy monolithic copies (`list_remote_sessions`,
  `kill_remote_session`)
- `src/ui.rs` / `src/main.rs` : `prompt_user_to_select_session` (identical copies)
-/

namespace Vigil

/-! ## Shell quoting (src/util.rs, `shell_escape`) -/

/-- One character of `s.replace('\'', "'\\''")`: a single quote becomes the
four characters `'\''`; every other character is unchanged. -/
def escChar (c : Char) : List Char :=
  if c = '\'' then ['\'', '\\', '\'', '\''] else [c]

/-- Body of `shell_escape` on the character list: wrap in single quotes after
replacing each embedded single quote (`format!("'{}'", s.replace('\'', "'\\''"))`). -/
def shellEscapeChars (s : List Char) : List Char :=
  '\'' :: (s.flatMap escChar ++ ['\''])

/-- Rust `shell_escape` from src/util.rs (and its identical copy in src/main.rs). -/
def shell_escape (s : String) : String :=
  ⟨shellEscapeChars s.data⟩

/-- A POSIX single-quote-aware shell-token decoder.  State `inQ` records
whether we are inside a single-quoted region.  Outside quotes, a backslash
escapes the following character; inside single quotes every character other
than the closing quote is literal.  Returns `none` on an unterminated quote
or trailing backslash. -/
def decodeShellChars : List Char → Bool → Option (List Char)
  | [], false => some []
  | [], true => none
  | c :: rest, true =>
    if c = '\'' then decodeShellChars rest false
    else (decodeShellChars rest true).map (c :: ·)
  | c :: rest, false =>
    if c = '\'' then decodeShellChars rest true
    else if c = '\\' then
      match rest with
      | [] => none
      | d :: rest2 => (decodeShellChars rest2 false).map (d :: ·)
    else (decodeShellChars rest false).map (c :: ·)

/-- The decoder on whole strings, starting outside quotes. -/
def decodeShellToken (s : String) : Option String :=
  (decodeShellChars s.data false).map (⟨·⟩)

/-! ## The argument hoister (src/cli.rs `parse_with_fallback`, src/main.rs
`parse_args`; the scanning loop is identical in the two copies) -/

/-- The three mode-related fields the hoister writes: `list`, and the
three-state `attach` and `kill` options (`Option<Option<String>>` in Rust). -/
structure HoistState where
  list : Bool
  attach : Option (Option String)
  kill : Option (Option String)
deriving DecidableEq

/-- Rust `next.starts_with('-')`. -/
def startsWithDash (s : String) : Bool :=
  match s.data with
  | [] => false
  | c :: _ => c = '-'

/-- Rust `s.contains(c)` for a single character. -/
def containsChar (s : String) (c : Char) : Bool :=
  s.data.contains c

/-- The hoister's session-name heuristic on the token after `--attach` /
`--select` / `--kill`: not flag-like and not host-like
(`!next.starts_with('-') && !next.contains('@') && !next.contains(':')`). -/
def nameTok (s : String) : Bool :=
  !startsWithDash s && !containsChar s '@' && !containsChar s ':'

/-- The single left-to-right scan with in-place removal over the trailing
token vector: `while i < ssh_args.len()` with `remove(i)` and `continue`
(the index does not advance on a removal).  Removal-and-continue is the
recursive call on the remaining suffix; keeping a token conses it onto the
scan of the rest. -/
def hoistScan : HoistState → List String → HoistState × List String
  | st, [] => (st, [])
  | st, tok :: rest =>
    if tok = "--list" ∧ st.list = false then
      hoistScan { st with list := true } rest
    else if (tok = "--attach" ∨ tok = "--select") ∧ st.attach = none then
      match rest with
      | [] => ({ st with attach := some none }, [])
      | next :: rest2 =>
        if nameTok next then
          hoistScan { st with attach := some (some next) } rest2
        else
          hoistScan { st with attach := some none } (next :: rest2)
    else if tok = "--kill" ∧ st.kill = none then
      match rest with
      | [] => ({ st with kill := some none }, [])
      | next :: rest2 =>
        if nameTok next then
          hoistScan { st with kill := some (some next) } rest2
        else
          hoistScan { st with kill := some none } (next :: rest2)
    else
      ((hoistScan st rest).1, tok :: (hoistScan st rest).2)

/-- Recognized TTY-allocation flags (`a == "-t" || a == "-tt"`). -/
def isTtyFlag (a : String) : Bool :=
  a == "-t" || a == "-tt"

/-- After the scan: if no remaining token is a TTY flag, insert `-t` at the
front (`ssh_args.insert(0, "-t")`). -/
def ensureTty (args : List String) : List String :=
  if args.any isTtyFlag then args else "-t" :: args

/-- The complete hoist step of `parse_with_fallback` / `parse_args`: the scan
followed by the TTY-flag default insertion. -/
def hoist (st : HoistState) (args : List String) : HoistState × List String :=
  ((hoistScan st args).1, ensureTty (hoistScan st args).2)

/-- The mode-field update performed when `flag` immediately precedes an
accepted session name: `--kill` sets the kill field, `--attach`/`--select`
set the attach field. -/
def setMode (st : HoistState) (flag name : String) : HoistState :=
  if flag = "--kill" then { st with kill := some (some name) }
  else { st with attach := some (some name) }

/-- The mode field driven by `flag`. -/
def modeGet (st : HoistState) (flag : String) : Option (Option String) :=
  if flag = "--kill" then st.kill else st.attach

/-- The spec's Session Identifier requirement (data model, §3): a non-empty
string with no embedded newline. -/
def validSessionId (s : String) : Prop :=
  s ≠ "" ∧ '\n' ∉ s.data

/-! ## Configuration (src/config.rs) -/

/-- Core configuration, built once per invocation (src/config.rs). -/
structure Config where
  session : String
  session_provided : Bool
  tmux_bin : String
  tmux_args : String
  ssh_prog : String
  ssh_args : List String
  local_user : String
  debug : Bool

/-! ## Remote executor argument vectors (src/ssh.rs, src/main.rs) -/

/-- The TTY-flag removal `retain(|a| a != "-t" && a != "-tt")` of
`exec_remote_capture` (src/ssh.rs) and the identical filters in the legacy
src/main.rs `list_remote_sessions` / `kill_remote_session`. -/
def stripTty (args : List String) : List String :=
  args.filter (fun a => !(a == "-t") && !(a == "-tt"))

/-- Outbound argument vector of `exec_remote_command` (src/ssh.rs): the base
SSH argument vector with the remote command string pushed last; TTY flags
are left untouched. -/
def execRemoteCommandArgs (cfg : Config) (command : String) : List String :=
  cfg.ssh_args ++ [command]

/-- Outbound argument vector of `exec_remote_capture` (src/ssh.rs): TTY flags
removed from the base vector, then the remote command string pushed last. -/
def execRemoteCaptureArgs (cfg : Config) (command : String) : List String :=
  stripTty cfg.ssh_args ++ [command]

/-- The remote list command string
(`format!("{} list-sessions -F {}", bin, shell_escape("#\x7bsession_name\x7d"))`
in src/tmux.rs and src/main.rs). -/
def listCmdString (tmuxBin : String) : String :=
  tmuxBin ++ " list-sessions -F " ++ shell_escape "#\x7bsession_name\x7d"

/-- The remote kill command string
(`format!("{} kill-session -t {}", bin, shell_escape(target))` in
src/tmux.rs and src/main.rs). -/
def killCmdString (tmuxBin target : String) : String :=
  tmuxBin ++ " kill-session -t " ++ shell_escape target

/-- Outbound argument vector of the modular Kill operation: src/tmux.rs
`kill_remote_session` builds the kill command string and delegates to
`exec_remote_command`. -/
def kill_remote_session_args (cfg : Config) (target : String) : List String :=
  execRemoteCommandArgs cfg (killCmdString cfg.tmux_bin target)

/-- Outbound argument vector of the legacy src/main.rs `kill_remote_session`:
TTY flags filtered from the base vector, then the kill command pushed last. -/
def mainKillArgs (sshArgs : List String) (tmuxBin target : String) : List String :=
  stripTty sshArgs ++ [killCmdString tmuxBin target]

/-- Outbound argument vector of the legacy src/main.rs `list_remote_sessions`. -/
def mainListArgs (sshArgs : List String) (tmuxBin : String) : List String :=
  stripTty sshArgs ++ [listCmdString tmuxBin]

/-! ## Process results and discovery queries (src/ssh.rs, src/tmux.rs,
src/main.rs) -/

/-- Result of a spawned remote process as reported by the process-execution
collaborator: exit code (`none` when terminated by a signal) and the
captured standard output and error, already lossily decoded. -/
structure ProcessOutput where
  code : Option Int
  stdout : String
  stderr : String

/-- Outcome of asking the collaborator to spawn the remote-execution program:
the process either ran to completion or could not be started at all. -/
inductive SpawnOutcome where
  | completed (out : ProcessOutput)
  | spawnFailed

/-- Rust `str::contains` with a literal pattern: substring containment. -/
def strContains (hay needle : String) : Bool :=
  decide (List.IsInfix needle.data hay.data)

/-- Runtime behaviour of `exec_remote_capture` (src/ssh.rs): a spawn failure
is an error carrying the anyhow context message; a completed process yields
`Ok` with the captured stdout regardless of its exit status. -/
def exec_remote_capture (cfg : Config) (command : String) (res : SpawnOutcome) :
    Except String String :=
  match command, res with
  | _, .spawnFailed =>
    .error ("failed to execute " ++ cfg.ssh_prog ++ " for remote command")
  | _, .completed out => .ok out.stdout

/-- Rust `char::is_whitespace` (the Unicode White_Space property). -/
def rustIsWhitespace (c : Char) : Bool :=
  decide ((0x9 ≤ c.toNat ∧ c.toNat ≤ 0xD) ∨ c.toNat = 0x20 ∨ c.toNat = 0x85 ∨
    c.toNat = 0xA0 ∨ c.toNat = 0x1680 ∨ (0x2000 ≤ c.toNat ∧ c.toNat ≤ 0x200A) ∨
    c.toNat = 0x2028 ∨ c.toNat = 0x2029 ∨ c.toNat = 0x202F ∨ c.toNat = 0x205F ∨
    c.toNat = 0x3000)

/-- Rust `str::trim` on a character list: Unicode whitespace removed from
both ends. -/
def rustTrimChars (l : List Char) : List Char :=
  ((l.dropWhile rustIsWhitespace).reverse.dropWhile rustIsWhitespace).reverse

/-- Rust `str::trim`. -/
def rustTrim (s : String) : String :=
  ⟨rustTrimChars s.data⟩

/-- Parsing of captured stdout into the Session List
(`output.lines().map(trim).filter(non-empty)` in src/tmux.rs and src/main.rs
`list_remote_sessions`; `lines` composed with trim-and-filter coincides with
splitting on the newline character). -/
def parseSessions (output : String) : List String :=
  (((output.data.splitOn '\n').map rustTrimChars).filter
    (fun l => !l.isEmpty)).map (fun l => (⟨l⟩ : String))

/-- The multi-platform installation hint (src/util.rs `tmux_install_hint`). -/
def tmux_install_hint : String :=
  "tmux not found on remote host.\n  - Debian/Ubuntu: sudo apt-get install tmux\n  - RHEL/CentOS/Fedora: sudo yum install tmux (or dnf)\n  - macOS (Homebrew): brew install tmux"

/-- Runtime behaviour of the modular discovery query (src/tmux.rs
`list_remote_sessions`): run the capture; on `Ok`, parse the stdout; on a
capture error (which only a spawn failure produces), print the installation
hint and fail when the error message contains `"127"` or `"not found"`,
otherwise report no sessions.  The boolean records whether the hint was
emitted on the diagnostic stream. -/
def list_remote_sessions_mod (cfg : Config) (res : SpawnOutcome) :
    Except String (List String) × Bool :=
  match exec_remote_capture cfg (listCmdString cfg.tmux_bin) res with
  | .ok output => (.ok (parseSessions output), false)
  | .error e =>
    if strContains e "127" || strContains e "not found" then
      (.error "remote tmux not found", true)
    else
      (.ok [], false)

/-- Runtime behaviour of the legacy discovery query (src/main.rs
`list_remote_sessions`): a spawn failure is fatal; a completed process with
exit code 127 prints the installation hint and fails; any other completed
process has its stdout parsed into the Session List.  The boolean records
whether the hint was emitted. -/
def list_remote_sessions_main (sshProg : String) (res : SpawnOutcome) :
    Except String (List String) × Bool :=
  match res with
  | .spawnFailed =>
    (.error ("failed to execute " ++ sshProg ++ " for listing sessions"), false)
  | .completed out =>
    if out.code = some 127 then (.error "remote tmux not found (exit 127)", true)
    else (.ok (parseSessions out.stdout), false)

/-! ## Remote-command builder (src/tmux.rs) -/

/-- Rust `build_session_command` (src/tmux.rs); the external lexing
collaborator (`shell_words::split`) is passed in as a function. -/
def build_session_command (lex : String → Except String (List String))
    (cfg : Config) (session_name : String) : List String :=
  let base := [cfg.tmux_bin, "new-session", "-A", "-s", session_name]
  if !(rustTrim cfg.tmux_args).isEmpty then
    match lex cfg.tmux_args with
    | .ok extra => base ++ extra
    | .error _ => base
  else base

/-- A lexing collaborator that always fails (used in witnesses). -/
def failingLex : String → Except String (List String) :=
  fun _ => .error "missing closing quote"

/-! ## Interactive selection (src/ui.rs, src/main.rs) -/

/-- Rust `usize::from_str` on the digit part: one or more ASCII digits. -/
def digitsVal : List Char → Option Nat
  | [] => none
  | l =>
    if l.all (fun c => c.isDigit) then
      some (l.foldl (fun a c => a * 10 + (c.toNat - 48)) 0)
    else none

/-- Rust `input.parse::<usize>()`: optional leading `+`, then ASCII digits,
rejecting values past `usize::MAX` on a 64-bit target. -/
def parseUsize (s : String) : Option Nat :=
  match
    (match s.data with
     | '+' :: rest => digitsVal rest
     | l => digitsVal l) with
  | some v => if v < 2 ^ 64 then some v else none
  | none => none

/-- Rust `prompt_user_to_select_session` (src/ui.rs and its identical copy in
src/main.rs): the interactive line read from the line-input collaborator is
passed in as `input`; the numbered menu goes to the diagnostic stream and
does not affect the result. -/
def prompt_user_to_select_session (_action : String) (sessions : List String)
    (input : String) : Except String String :=
  let t := rustTrim input
  let idx := if t.isEmpty then 1 else (parseUsize t).getD 0
  if idx = 0 ∨ sessions.length < idx then .error "invalid selection"
  else .ok (sessions.getD (idx - 1) "")

/-! ### Branch equations for the scan -/

theorem hoistScan_nil (st : HoistState) : hoistScan st [] = (st, []) := rfl

theorem hoistScan_listFlag (st : HoistState) (tok : String) (rest : List String)
    (h1 : tok = "--list" ∧ st.list = false) :
    hoistScan st (tok :: rest) = hoistScan { st with list := true } rest := by
  cases rest with
  | nil => rw [hoistScan.eq_2, if_pos h1]
  | cons next rest2 => rw [hoistScan.eq_3, if_pos h1]

theorem hoistScan_attachNil (st : HoistState) (tok : String)
    (h1 : ¬(tok = "--list" ∧ st.list = false))
    (h2 : (tok = "--attach" ∨ tok = "--select") ∧ st.attach = none) :
    hoistScan st [tok] = ({ st with attach := some none }, []) := by
  rw [hoistScan.eq_2, if_neg h1, if_pos h2]

theorem hoistScan_attachName (st : HoistState) (tok next : String) (rest2 : List String)
    (h1 : ¬(tok = "--list" ∧ st.list = false))
    (h2 : (tok = "--attach" ∨ tok = "--select") ∧ st.attach = none)
    (hn : nameTok next = true) :
    hoistScan st (tok :: next :: rest2) =
      hoistScan { st with attach := some (some next) } rest2 := by
  rw [hoistScan.eq_3, if_neg h1, if_pos h2, if_pos hn]

theorem hoistScan_attachNoName (st : HoistState) (tok next : String) (rest2 : List String)
    (h1 : ¬(tok = "--list" ∧ st.list = false))
    (h2 : (tok = "--attach" ∨ tok = "--select") ∧ st.attach = none)
    (hn : nameTok next = false) :
    hoistScan st (tok :: next :: rest2) =
      hoistScan { st with attach := some none } (next :: rest2) := by
  rw [hoistScan.eq_3, if_neg h1, if_pos h2,
    if_neg (by rw [hn]; exact Bool.false_ne_true)]

theorem hoistScan_killNil (st : HoistState) (tok : String)
    (h1 : ¬(tok = "--list" ∧ st.list = false))
    (h2 : ¬((tok = "--attach" ∨ tok = "--select") ∧ st.attach = none))
    (h3 : tok = "--kill" ∧ st.kill = none) :
    hoistScan st [tok] = ({ st with kill := some none }, []) := by
  rw [hoistScan.eq_2, if_neg h1, if_neg h2, if_pos h3]

theorem hoistScan_killName (st : HoistState) (tok next : String) (rest2 : List String)
    (h1 : ¬(tok = "--list" ∧ st.list = false))
    (h2 : ¬((tok = "--attach" ∨ tok = "--select") ∧ st.attach = none))
    (h3 : tok = "--kill" ∧ st.kill = none)
    (hn : nameTok next = true) :
    hoistScan st (tok :: next :: rest2) =
      hoistScan { st with kill := some (some next) } rest2 := by
  rw [hoistScan.eq_3, if_neg h1, if_neg h2, if_pos h3, if_pos hn]

theorem hoistScan_killNoName (st : HoistState) (tok next : String) (rest2 : List String)
    (h1 : ¬(tok = "--list" ∧ st.list = false))
    (h2 : ¬((tok = "--attach" ∨ tok = "--select") ∧ st.attach = none))
    (h3 : tok = "--kill" ∧ st.kill = none)
    (hn : nameTok next = false) :
    hoistScan st (tok :: next :: rest2) =
      hoistScan { st with kill := some none } (next :: rest2) := by
  rw [hoistScan.eq_3, if_neg h1, if_neg h2, if_pos h3,
    if_neg (by rw [hn]; exact Bool.false_ne_true)]

theorem hoistScan_keep (st : HoistState) (tok : String) (rest : List String)
    (h1 : ¬(tok = "--list" ∧ st.list = false))
    (h2 : ¬((tok = "--attach" ∨ tok = "--select") ∧ st.attach = none))
    (h3 : ¬(tok = "--kill" ∧ st.kill = none)) :
    hoistScan st (tok :: rest) = ((hoistScan st rest).1, tok :: (hoistScan st rest).2) := by
  cases rest with
  | nil => rw [hoistScan.eq_2, if_neg h1, if_neg h2, if_neg h3]
  | cons next rest2 => rw [hoistScan.eq_3, if_neg h1, if_neg h2, if_neg h3]

/-! ### State invariants of the scan -/

/-- Any predicate on the mode fields preserved by each of the three updates the
scan can perform (each firing only from the corresponding unset state) holds of
the final state whenever it holds initially. -/
theorem scan_state_inv (P : HoistState → Prop)
    (hl : ∀ st, P st → st.list = false → P { st with list := true })
    (ha : ∀ st v, P st → st.attach = none → P { st with attach := some v })
    (hk : ∀ st v, P st → st.kill = none → P { st with kill := some v }) :
    ∀ (st : HoistState) (args : List String), P st → P (hoistScan st args).1
  | st, [], h => h
  | st, tok :: rest, h => by
    by_cases h1 : tok = "--list" ∧ st.list = false
    · rw [hoistScan_listFlag st tok rest h1]
      exact scan_state_inv P hl ha hk _ rest (hl st h h1.2)
    · by_cases h2 : (tok = "--attach" ∨ tok = "--select") ∧ st.attach = none
      · cases rest with
        | nil => rw [hoistScan_attachNil st tok h1 h2]; exact ha st none h h2.2
        | cons next rest2 =>
          by_cases hn : nameTok next = true
          · rw [hoistScan_attachName st tok next rest2 h1 h2 hn]
            exact scan_state_inv P hl ha hk _ rest2 (ha st (some next) h h2.2)
          · rw [hoistScan_attachNoName st tok next rest2 h1 h2 (Bool.eq_false_iff.mpr hn)]
            exact scan_state_inv P hl ha hk _ (next :: rest2) (ha st none h h2.2)
      · by_cases h3 : tok = "--kill" ∧ st.kill = none
        · cases rest with
          | nil => rw [hoistScan_killNil st tok h1 h2 h3]; exact hk st none h h3.2
          | cons next rest2 =>
            by_cases hn : nameTok next = true
            · rw [hoistScan_killName st tok next rest2 h1 h2 h3 hn]
              exact scan_state_inv P hl ha hk _ rest2 (hk st (some next) h h3.2)
            · rw [hoistScan_killNoName st tok next rest2 h1 h2 h3 (Bool.eq_false_iff.mpr hn)]
              exact scan_state_inv P hl ha hk _ (next :: rest2) (hk st none h h3.2)
        · rw [hoistScan_keep st tok rest h1 h2 h3]
          exact scan_state_inv P hl ha hk st rest h
termination_by st args _ => args.length
decreasing_by all_goals (simp only [List.length_cons]; omega)

/-- Once the list flag is set it stays set. -/
theorem scan_pres_list (st : HoistState) (args : List String) (h : st.list = true) :
    (hoistScan st args).1.list = true :=
  scan_state_inv (fun s => s.list = true)
    (fun _ _ _ => rfl) (fun _ _ hp _ => hp) (fun _ _ hp _ => hp) st args h

/-- Once the attach field is set its value never changes. -/
theorem scan_pres_attach (st : HoistState) (args : List String) (v : Option String)
    (h : st.attach = some v) : (hoistScan st args).1.attach = some v :=
  scan_state_inv (fun s => s.attach = some v)
    (fun _ hp _ => hp) (fun _ _ hp hn => absurd (hp ▸ hn) (by simp))
    (fun _ _ hp _ => hp) st args h

/-- Once the kill field is set its value never changes. -/
theorem scan_pres_kill (st : HoistState) (args : List String) (v : Option String)
    (h : st.kill = some v) : (hoistScan st args).1.kill = some v :=
  scan_state_inv (fun s => s.kill = some v)
    (fun _ hp _ => hp) (fun _ _ hp _ => hp)
    (fun _ _ hp hn => absurd (hp ▸ hn) (by simp)) st args h

/-- If a mode field is still unset after the scan, that mode's flag tokens do
not occur in the cleaned vector. -/
theorem scan_out_clean : ∀ (st : HoistState) (args : List String),
    ((hoistScan st args).1.list = false → "--list" ∉ (hoistScan st args).2) ∧
    ((hoistScan st args).1.attach = none →
      "--attach" ∉ (hoistScan st args).2 ∧ "--select" ∉ (hoistScan st args).2) ∧
    ((hoistScan st args).1.kill = none → "--kill" ∉ (hoistScan st args).2)
  | st, [] => by simp [hoistScan_nil]
  | st, tok :: rest => by
    by_cases h1 : tok = "--list" ∧ st.list = false
    · simp only [hoistScan_listFlag st tok rest h1]
      refine ⟨fun hf => ?_, (scan_out_clean _ rest).2.1, (scan_out_clean _ rest).2.2⟩
      rw [scan_pres_list _ rest rfl] at hf
      exact Bool.noConfusion hf
    · by_cases h2 : (tok = "--attach" ∨ tok = "--select") ∧ st.attach = none
      · cases rest with
        | nil => simp [hoistScan_attachNil st tok h1 h2]
        | cons next rest2 =>
          by_cases hn : nameTok next = true
          · simp only [hoistScan_attachName st tok next rest2 h1 h2 hn]
            refine ⟨(scan_out_clean _ rest2).1, fun hf => ?_, (scan_out_clean _ rest2).2.2⟩
            rw [scan_pres_attach _ rest2 (some next) rfl] at hf
            exact Option.noConfusion hf
          · simp only [hoistScan_attachNoName st tok next rest2 h1 h2 (Bool.eq_false_iff.mpr hn)]
            refine ⟨(scan_out_clean _ (next :: rest2)).1, fun hf => ?_,
              (scan_out_clean _ (next :: rest2)).2.2⟩
            rw [scan_pres_attach _ (next :: rest2) none rfl] at hf
            exact Option.noConfusion hf
      · by_cases h3 : tok = "--kill" ∧ st.kill = none
        · cases rest with
          | nil => simp [hoistScan_killNil st tok h1 h2 h3]
          | cons next rest2 =>
            by_cases hn : nameTok next = true
            · simp only [hoistScan_killName st tok next rest2 h1 h2 h3 hn]
              refine ⟨(scan_out_clean _ rest2).1, (scan_out_clean _ rest2).2.1, fun hf => ?_⟩
              rw [scan_pres_kill _ rest2 (some next) rfl] at hf
              exact Option.noConfusion hf
            · simp only [hoistScan_killNoName st tok next rest2 h1 h2 h3 (Bool.eq_false_iff.mpr hn)]
              refine ⟨(scan_out_clean _ (next :: rest2)).1, (scan_out_clean _ (next :: rest2)).2.1,
                fun hf => ?_⟩
              rw [scan_pres_kill _ (next :: rest2) none rfl] at hf
              exact Option.noConfusion hf
        · simp only [hoistScan_keep st tok rest h1 h2 h3]
          refine ⟨fun hf => ?_, fun hf => ?_, fun hf => ?_⟩
          · simp only [List.mem_cons, not_or]
            refine ⟨fun he => ?_, (scan_out_clean st rest).1 hf⟩
            have hl : st.list = true := by
              rcases Bool.eq_false_or_eq_true st.list with h | h
              · exact h
              · exact absurd ⟨he.symm, h⟩ h1
            rw [scan_pres_list st rest hl] at hf
            exact Bool.noConfusion hf
          · have hrec := (scan_out_clean st rest).2.1 hf
            simp only [List.mem_cons, not_or]
            refine ⟨⟨fun he => ?_, hrec.1⟩, fun he => ?_, hrec.2⟩
            · cases ha : st.attach with
              | none => exact h2 ⟨Or.inl he.symm, ha⟩
              | some v =>
                rw [scan_pres_attach st rest v ha] at hf
                exact Option.noConfusion hf
            · cases ha : st.attach with
              | none => exact h2 ⟨Or.inr he.symm, ha⟩
              | some v =>
                rw [scan_pres_attach st rest v ha] at hf
                exact Option.noConfusion hf
          · have hrec := (scan_out_clean st rest).2.2 hf
            simp only [List.mem_cons, not_or]
            refine ⟨fun he => ?_, hrec⟩
            cases hk : st.kill with
            | none => exact h3 ⟨he.symm, hk⟩
            | some v =>
              rw [scan_pres_kill st rest v hk] at hf
              exact Option.noConfusion hf
termination_by st args => args.length
decreasing_by all_goals (simp only [List.length_cons]; omega)

/-- When every guard is disabled (each mode either already set or its flag
tokens absent from the input), the scan leaves state and vector unchanged. -/
theorem scan_id : ∀ (st : HoistState) (args : List String),
    (st.list = true ∨ "--list" ∉ args) →
    (st.attach ≠ none ∨ ("--attach" ∉ args ∧ "--select" ∉ args)) →
    (st.kill ≠ none ∨ "--kill" ∉ args) →
    hoistScan st args = (st, args)
  | st, [], _, _, _ => hoistScan_nil st
  | st, tok :: rest, hL, hA, hK => by
    have h1 : ¬(tok = "--list" ∧ st.list = false) := by
      rintro ⟨ht, hc⟩
      rcases hL with h | h
      · rw [h] at hc; exact Bool.noConfusion hc
      · exact h (by rw [← ht]; exact List.mem_cons_self tok rest)
    have h2 : ¬((tok = "--attach" ∨ tok = "--select") ∧ st.attach = none) := by
      rintro ⟨ht, hc⟩
      rcases hA with h | h
      · exact h hc
      · rcases ht with ht | ht
        · exact h.1 (by rw [← ht]; exact List.mem_cons_self tok rest)
        · exact h.2 (by rw [← ht]; exact List.mem_cons_self tok rest)
    have h3 : ¬(tok = "--kill" ∧ st.kill = none) := by
      rintro ⟨ht, hc⟩
      rcases hK with h | h
      · exact h hc
      · exact h (by rw [← ht]; exact List.mem_cons_self tok rest)
    have hL2 : st.list = true ∨ "--list" ∉ rest := by
      rcases hL with h | h
      · exact Or.inl h
      · exact Or.inr fun hm => h (List.mem_cons_of_mem tok hm)
    have hA2 : st.attach ≠ none ∨ ("--attach" ∉ rest ∧ "--select" ∉ rest) := by
      rcases hA with h | h
      · exact Or.inl h
      · exact Or.inr ⟨fun hm => h.1 (List.mem_cons_of_mem tok hm),
          fun hm => h.2 (List.mem_cons_of_mem tok hm)⟩
    have hK2 : st.kill ≠ none ∨ "--kill" ∉ rest := by
      rcases hK with h | h
      · exact Or.inl h
      · exact Or.inr fun hm => h (List.mem_cons_of_mem tok hm)
    rw [hoistScan_keep st tok rest h1 h2 h3, scan_id st rest hL2 hA2 hK2]
termination_by st args _ _ _ => args.length
decreasing_by all_goals (simp only [List.length_cons]; omega)

/-! ### Lemmas on the TTY-flag default insertion -/

theorem ensureTty_any (args : List String) : (ensureTty args).any isTtyFlag = true := by
  unfold ensureTty
  split
  · assumption
  · rw [List.any_cons, show isTtyFlag "-t" = true from rfl]
    exact Bool.true_or _

theorem ensureTty_idem (args : List String) : ensureTty (ensureTty args) = ensureTty args := by
  conv_lhs => rw [ensureTty]
  rw [if_pos (ensureTty_any args)]

theorem mem_ensureTty (args : List String) (x : String) (h : x ∈ ensureTty args) :
    x = "-t" ∨ x ∈ args := by
  unfold ensureTty at h
  split at h
  · exact Or.inr h
  · rcases List.mem_cons.mp h with h | h
    · exact Or.inl h
    · exact Or.inr h

/-! ### C6: idempotence of the hoist -/

/-- C6: the argument hoister is idempotent in effect — running the hoist
algorithm on the mode fields and cleaned token vector it produced returns
that same state and vector unchanged (in particular no mode field changes). -/
theorem hoist_idempotent (st : HoistState) (args : List String) :
    hoist (hoist st args).1 (hoist st args).2 = hoist st args := by
  unfold hoist
  have hid : hoistScan (hoistScan st args).1 (ensureTty (hoistScan st args).2) =
      ((hoistScan st args).1, ensureTty (hoistScan st args).2) := by
    apply scan_id
    · rcases Bool.eq_false_or_eq_true (hoistScan st args).1.list with h | h
      · exact Or.inl h
      · refine Or.inr fun hm => ?_
        rcases mem_ensureTty _ _ hm with he | hm2
        · exact absurd he (by decide)
        · exact (scan_out_clean st args).1 h hm2
    · cases ha : (hoistScan st args).1.attach with
      | some v => exact Or.inl (by simp [ha])
      | none =>
        refine Or.inr ⟨fun hm => ?_, fun hm => ?_⟩
        · rcases mem_ensureTty _ _ hm with he | hm2
          · exact absurd he (by decide)
          · exact ((scan_out_clean st args).2.1 ha).1 hm2
        · rcases mem_ensureTty _ _ hm with he | hm2
          · exact absurd he (by decide)
          · exact ((scan_out_clean st args).2.1 ha).2 hm2
    · cases hk : (hoistScan st args).1.kill with
      | some v => exact Or.inl (by simp [hk])
      | none =>
        refine Or.inr fun hm => ?_
        rcases mem_ensureTty _ _ hm with he | hm2
        · exact absurd he (by decide)
        · exact (scan_out_clean st args).2.2 hk hm2
  rw [hid]
  simp [ensureTty_idem]

/-! ### C1: reserved flags and the cleaned vector -/

theorem nameTok_ne_reserved (s : String) (h : nameTok s = true) :
    s ≠ "--list" ∧ s ≠ "--attach" ∧ s ≠ "--select" ∧ s ≠ "--kill" := by
  refine ⟨?_, ?_, ?_, ?_⟩ <;> rintro rfl <;> exact absurd h (by decide)

theorem count_cons_ne (a b : String) (l : List String) (h : a ≠ b) :
    (b :: l).count a = l.count a := by
  simp [List.count_cons, h]

theorem not_mem_tail {a b : String} {l : List String} (h : a ∉ b :: l) : a ∉ l :=
  fun hm => h (List.mem_cons_of_mem b hm)

/-- Relative to the initial mode state, if each mode is unset and its flag
occurs at most once (or is set and its flag does not occur at all), then no
reserved flag survives the scan. -/
theorem scan_no_reserved : ∀ (st : HoistState) (args : List String),
    (st.list = false → args.count "--list" ≤ 1) →
    (st.list = true → "--list" ∉ args) →
    (st.attach = none → args.count "--attach" + args.count "--select" ≤ 1) →
    (st.attach ≠ none → "--attach" ∉ args ∧ "--select" ∉ args) →
    (st.kill = none → args.count "--kill" ≤ 1) →
    (st.kill ≠ none → "--kill" ∉ args) →
    "--list" ∉ (hoistScan st args).2 ∧ "--attach" ∉ (hoistScan st args).2 ∧
      "--select" ∉ (hoistScan st args).2 ∧ "--kill" ∉ (hoistScan st args).2
  | st, [], _, _, _, _, _, _ => by simp [hoistScan_nil]
  | st, [tok], hL1, hL2, hA1, hA2, hK1, hK2 => by
    by_cases h1 : tok = "--list" ∧ st.list = false
    · simp [hoistScan_listFlag st tok [] h1, hoistScan_nil]
    · by_cases h2 : (tok = "--attach" ∨ tok = "--select") ∧ st.attach = none
      · simp [hoistScan_attachNil st tok h1 h2]
      · by_cases h3 : tok = "--kill" ∧ st.kill = none
        · simp [hoistScan_killNil st tok h1 h2 h3]
        · have ht1 : tok ≠ "--list" := by
            rintro rfl
            rcases Bool.eq_false_or_eq_true st.list with h | h
            · exact hL2 h (List.mem_cons_self _ _)
            · exact h1 ⟨rfl, h⟩
          have ht2 : tok ≠ "--attach" := by
            rintro rfl
            cases ha : st.attach with
            | none => exact h2 ⟨Or.inl rfl, ha⟩
            | some v => exact (hA2 (by simp [ha])).1 (List.mem_cons_self _ _)
          have ht3 : tok ≠ "--select" := by
            rintro rfl
            cases ha : st.attach with
            | none => exact h2 ⟨Or.inr rfl, ha⟩
            | some v => exact (hA2 (by simp [ha])).2 (List.mem_cons_self _ _)
          have ht4 : tok ≠ "--kill" := by
            rintro rfl
            cases hk : st.kill with
            | none => exact h3 ⟨rfl, hk⟩
            | some v => exact hK2 (by simp [hk]) (List.mem_cons_self _ _)
          simp only [hoistScan_keep st tok [] h1 h2 h3, hoistScan_nil]
          simp only [List.mem_singleton]
          exact ⟨fun he => ht1 he.symm, fun he => ht2 he.symm,
            fun he => ht3 he.symm, fun he => ht4 he.symm⟩
  | st, tok :: next :: rest2, hL1, hL2, hA1, hA2, hK1, hK2 => by
    by_cases h1 : tok = "--list" ∧ st.list = false
    · obtain ⟨ht, hl⟩ := h1
      subst ht
      simp only [hoistScan_listFlag st "--list" (next :: rest2) ⟨rfl, hl⟩]
      have hc0 : (next :: rest2).count "--list" = 0 := by
        have := hL1 hl
        rw [List.count_cons_self] at this
        omega
      have hp3 : st.attach = none →
          (next :: rest2).count "--attach" + (next :: rest2).count "--select" ≤ 1 :=
        fun hc => by
        have := hA1 hc
        rwa [count_cons_ne "--attach" "--list" (next :: rest2) (by decide),
          count_cons_ne "--select" "--list" (next :: rest2) (by decide)] at this
      have hp5 : st.kill = none → (next :: rest2).count "--kill" ≤ 1 := fun hc => by
        have := hK1 hc
        rwa [count_cons_ne "--kill" "--list" (next :: rest2) (by decide)] at this
      exact scan_no_reserved _ (next :: rest2) (fun hc => absurd hc (by simp))
        (fun _ => List.count_eq_zero.mp hc0) hp3
        (fun hc => ⟨not_mem_tail (hA2 hc).1, not_mem_tail (hA2 hc).2⟩)
        hp5 (fun hc => not_mem_tail (hK2 hc))
    · by_cases h2 : (tok = "--attach" ∨ tok = "--select") ∧ st.attach = none
      · have htl : tok ≠ "--list" := by
          rcases h2.1 with h | h <;> (rw [h]; decide)
        have htk : tok ≠ "--kill" := by
          rcases h2.1 with h | h <;> (rw [h]; decide)
        have hsum := hA1 h2.2
        by_cases hn : nameTok next = true
        · have hne := nameTok_ne_reserved next hn
          simp only [hoistScan_attachName st tok next rest2 h1 h2 hn]
          have hza : rest2.count "--attach" = 0 ∧ rest2.count "--select" = 0 := by
            rcases h2.1 with h | h <;> subst h
            · rw [List.count_cons_self,
                count_cons_ne "--attach" next rest2 (Ne.symm hne.2.1),
                count_cons_ne "--select" "--attach" (next :: rest2) (by decide),
                count_cons_ne "--select" next rest2 (Ne.symm hne.2.2.1)] at hsum
              exact ⟨by omega, by omega⟩
            · rw [count_cons_ne "--attach" "--select" (next :: rest2) (by decide),
                count_cons_ne "--attach" next rest2 (Ne.symm hne.2.1),
                List.count_cons_self,
                count_cons_ne "--select" next rest2 (Ne.symm hne.2.2.1)] at hsum
              exact ⟨by omega, by omega⟩
          have hp1 : st.list = false → rest2.count "--list" ≤ 1 := fun hc => by
            have := hL1 hc
            rwa [count_cons_ne "--list" tok (next :: rest2) (Ne.symm htl),
              count_cons_ne "--list" next rest2 (Ne.symm hne.1)] at this
          have hp5 : st.kill = none → rest2.count "--kill" ≤ 1 := fun hc => by
            have := hK1 hc
            rwa [count_cons_ne "--kill" tok (next :: rest2) (Ne.symm htk),
              count_cons_ne "--kill" next rest2 (Ne.symm hne.2.2.2)] at this
          exact scan_no_reserved _ rest2 hp1
            (fun hc => not_mem_tail (not_mem_tail (hL2 hc)))
            (fun hc => absurd hc (by simp))
            (fun _ => ⟨List.count_eq_zero.mp hza.1, List.count_eq_zero.mp hza.2⟩)
            hp5 (fun hc => not_mem_tail (not_mem_tail (hK2 hc)))
        · simp only [hoistScan_attachNoName st tok next rest2 h1 h2 (Bool.eq_false_iff.mpr hn)]
          have hzb : (next :: rest2).count "--attach" = 0 ∧
              (next :: rest2).count "--select" = 0 := by
            rcases h2.1 with h | h <;> subst h
            · rw [List.count_cons_self,
                count_cons_ne "--select" "--attach" (next :: rest2) (by decide)] at hsum
              exact ⟨by omega, by omega⟩
            · rw [count_cons_ne "--attach" "--select" (next :: rest2) (by decide),
                List.count_cons_self] at hsum
              exact ⟨by omega, by omega⟩
          have hp1 : st.list = false → (next :: rest2).count "--list" ≤ 1 := fun hc => by
            have := hL1 hc
            rwa [count_cons_ne "--list" tok (next :: rest2) (Ne.symm htl)] at this
          have hp5 : st.kill = none → (next :: rest2).count "--kill" ≤ 1 := fun hc => by
            have := hK1 hc
            rwa [count_cons_ne "--kill" tok (next :: rest2) (Ne.symm htk)] at this
          exact scan_no_reserved _ (next :: rest2) hp1
            (fun hc => not_mem_tail (hL2 hc))
            (fun hc => absurd hc (by simp))
            (fun _ => ⟨List.count_eq_zero.mp hzb.1, List.count_eq_zero.mp hzb.2⟩)
            hp5 (fun hc => not_mem_tail (hK2 hc))
      · by_cases h3 : tok = "--kill" ∧ st.kill = none
        · obtain ⟨ht, hknone⟩ := h3
          subst ht
          have hsum := hK1 hknone
          rw [List.count_cons_self] at hsum
          have hkn : "--kill" ∉ next :: rest2 :=
            List.count_eq_zero.mp (by omega)
          by_cases hn : nameTok next = true
          · have hne := nameTok_ne_reserved next hn
            simp only [hoistScan_killName st "--kill" next rest2 h1 h2 ⟨rfl, hknone⟩ hn]
            have hp1 : st.list = false → rest2.count "--list" ≤ 1 := fun hc => by
              have := hL1 hc
              rwa [count_cons_ne "--list" "--kill" (next :: rest2) (by decide),
                count_cons_ne "--list" next rest2 (Ne.symm hne.1)] at this
            have hp3 : st.attach = none →
                rest2.count "--attach" + rest2.count "--select" ≤ 1 := fun hc => by
              have := hA1 hc
              rwa [count_cons_ne "--attach" "--kill" (next :: rest2) (by decide),
                count_cons_ne "--attach" next rest2 (Ne.symm hne.2.1),
                count_cons_ne "--select" "--kill" (next :: rest2) (by decide),
                count_cons_ne "--select" next rest2 (Ne.symm hne.2.2.1)] at this
            exact scan_no_reserved _ rest2 hp1
              (fun hc => not_mem_tail (not_mem_tail (hL2 hc)))
              hp3
              (fun hc => ⟨not_mem_tail (not_mem_tail (hA2 hc).1),
                not_mem_tail (not_mem_tail (hA2 hc).2)⟩)
              (fun hc => absurd hc (by simp))
              (fun _ => not_mem_tail hkn)
          · simp only [hoistScan_killNoName st "--kill" next rest2 h1 h2 ⟨rfl, hknone⟩
              (Bool.eq_false_iff.mpr hn)]
            have hp1 : st.list = false → (next :: rest2).count "--list" ≤ 1 := fun hc => by
              have := hL1 hc
              rwa [count_cons_ne "--list" "--kill" (next :: rest2) (by decide)] at this
            have hp3 : st.attach = none →
                (next :: rest2).count "--attach" + (next :: rest2).count "--select" ≤ 1 :=
              fun hc => by
              have := hA1 hc
              rwa [count_cons_ne "--attach" "--kill" (next :: rest2) (by decide),
                count_cons_ne "--select" "--kill" (next :: rest2) (by decide)] at this
            exact scan_no_reserved _ (next :: rest2) hp1
              (fun hc => not_mem_tail (hL2 hc))
              hp3
              (fun hc => ⟨not_mem_tail (hA2 hc).1, not_mem_tail (hA2 hc).2⟩)
              (fun hc => absurd hc (by simp))
              (fun _ => hkn)
        · have ht1 : tok ≠ "--list" := by
            rintro rfl
            rcases Bool.eq_false_or_eq_true st.list with h | h
            · exact hL2 h (List.mem_cons_self _ _)
            · exact h1 ⟨rfl, h⟩
          have ht2 : tok ≠ "--attach" := by
            rintro rfl
            cases ha : st.attach with
            | none => exact h2 ⟨Or.inl rfl, ha⟩
            | some v => exact (hA2 (by simp [ha])).1 (List.mem_cons_self _ _)
          have ht3 : tok ≠ "--select" := by
            rintro rfl
            cases ha : st.attach with
            | none => exact h2 ⟨Or.inr rfl, ha⟩
            | some v => exact (hA2 (by simp [ha])).2 (List.mem_cons_self _ _)
          have ht4 : tok ≠ "--kill" := by
            rintro rfl
            cases hk : st.kill with
            | none => exact h3 ⟨rfl, hk⟩
            | some v => exact hK2 (by simp [hk]) (List.mem_cons_self _ _)
          have ih := scan_no_reserved st (next :: rest2)
            (fun hc => by
              have := hL1 hc
              rwa [count_cons_ne "--list" tok (next :: rest2) (Ne.symm ht1)] at this)
            (fun hc => not_mem_tail (hL2 hc))
            (fun hc => by
              have := hA1 hc
              rwa [count_cons_ne "--attach" tok (next :: rest2) (Ne.symm ht2),
                count_cons_ne "--select" tok (next :: rest2) (Ne.symm ht3)] at this)
            (fun hc => ⟨not_mem_tail (hA2 hc).1, not_mem_tail (hA2 hc).2⟩)
            (fun hc => by
              have := hK1 hc
              rwa [count_cons_ne "--kill" tok (next :: rest2) (Ne.symm ht4)] at this)
            (fun hc => not_mem_tail (hK2 hc))
          simp only [hoistScan_keep st tok (next :: rest2) h1 h2 h3]
          simp only [List.mem_cons, not_or]
          exact ⟨⟨fun he => ht1 he.symm, ih.1⟩, ⟨fun he => ht2 he.symm, ih.2.1⟩,
            ⟨fun he => ht3 he.symm, ih.2.2.1⟩, ⟨fun he => ht4 he.symm, ih.2.2.2⟩⟩
termination_by st args => args.length
decreasing_by all_goals (simp only [List.length_cons]; omega)

/-- C1 counterexample: when a reserved flag appears twice in the raw trailing
token vector (here `--list` twice, starting from all-unset mode fields), the
second occurrence survives the hoist, so the cleaned SSH argument vector does
contain a reserved flag. -/
theorem c1_reserved_flag_counterexample :
    "--list" ∈ (hoist ⟨false, none, none⟩ ["--list", "--list"]).2 ∧
      hoist ⟨false, none, none⟩ ["--list", "--list"] =
        (⟨true, none, none⟩, ["-t", "--list"]) := by decide

/-- C1 amended: if each mode field is unset before the scan and each reserved
flag occurs at most once in the raw trailing vector (counting `--attach` and
`--select` together, as they drive the same mode), then the cleaned SSH
argument vector contains none of the tool's reserved flags.  A repeated
reserved flag, or one whose mode was already set, survives instead
(see the counterexample). -/
theorem c1_no_reserved_flags_amended (st : HoistState) (args : List String)
    (hL : st.list = false) (hA : st.attach = none) (hK : st.kill = none)
    (n1 : args.count "--list" ≤ 1)
    (n2 : args.count "--attach" + args.count "--select" ≤ 1)
    (n3 : args.count "--kill" ≤ 1) :
    "--list" ∉ (hoist st args).2 ∧ "--attach" ∉ (hoist st args).2 ∧
      "--select" ∉ (hoist st args).2 ∧ "--kill" ∉ (hoist st args).2 := by
  have h := scan_no_reserved st args (fun _ => n1)
    (fun hc => absurd hc (by simp [hL])) (fun _ => n2)
    (fun hc => absurd hA hc) (fun _ => n3) (fun hc => absurd hK hc)
  unfold hoist
  refine ⟨fun hm => ?_, fun hm => ?_, fun hm => ?_, fun hm => ?_⟩
  · rcases mem_ensureTty _ _ hm with he | hm2
    · exact absurd he (by decide)
    · exact h.1 hm2
  · rcases mem_ensureTty _ _ hm with he | hm2
    · exact absurd he (by decide)
    · exact h.2.1 hm2
  · rcases mem_ensureTty _ _ hm with he | hm2
    · exact absurd he (by decide)
    · exact h.2.2.1 hm2
  · rcases mem_ensureTty _ _ hm with he | hm2
    · exact absurd he (by decide)
    · exact h.2.2.2 hm2

/-- Witness for the amended C1 at the spec scenario input
`["user@host", "--list"]` with all-unset initial mode fields. -/
theorem c1_no_reserved_flags_witness :
    ((⟨false, none, none⟩ : HoistState).list = false ∧
      ["user@host", "--list"].count "--list" ≤ 1 ∧
      ["user@host", "--list"].count "--attach" + ["user@host", "--list"].count "--select" ≤ 1 ∧
      ["user@host", "--list"].count "--kill" ≤ 1) ∧
    ("--list" ∉ (hoist ⟨false, none, none⟩ ["user@host", "--list"]).2 ∧
      "--attach" ∉ (hoist ⟨false, none, none⟩ ["user@host", "--list"]).2 ∧
      "--select" ∉ (hoist ⟨false, none, none⟩ ["user@host", "--list"]).2 ∧
      "--kill" ∉ (hoist ⟨false, none, none⟩ ["user@host", "--list"]).2) :=
  ⟨by decide, c1_no_reserved_flags_amended ⟨false, none, none⟩ ["user@host", "--list"]
    rfl rfl rfl (by decide) (by decide) (by decide)⟩

/-! ### C8: hoisting an explicit session name after its mode flag -/

/-- Decomposition for the kill flag: when the kill mode is unset, no earlier
`--kill` occurs, and the token after `--kill` passes the session-name
heuristic, the scan consumes both tokens, records the name, and scans the
prefix and suffix as if they were adjacent. -/
theorem scan_kill_hoist : ∀ (st : HoistState) (pre post : List String) (name : String),
    st.kill = none → "--kill" ∉ pre → nameTok name = true →
    hoistScan st (pre ++ "--kill" :: name :: post) =
      ((hoistScan { (hoistScan st pre).1 with kill := some (some name) } post).1,
       (hoistScan st pre).2 ++
         (hoistScan { (hoistScan st pre).1 with kill := some (some name) } post).2)
  | st, [], post, name, hk, _, hname => by
    have h1 : ¬("--kill" = "--list" ∧ st.list = false) := by
      rintro ⟨h, -⟩; exact absurd h (by decide)
    have h2 : ¬(("--kill" = "--attach" ∨ "--kill" = "--select") ∧ st.attach = none) := by
      rintro ⟨h | h, -⟩ <;> exact absurd h (by decide)
    simp only [List.nil_append]
    rw [hoistScan_killName st "--kill" name post h1 h2 ⟨rfl, hk⟩ hname]
    simp [hoistScan_nil]
  | st, [tok], post, name, hk, hpre, hname => by
    have htk : tok ≠ "--kill" := by
      intro he
      exact hpre (by rw [he]; exact List.mem_cons_self _ _)
    simp only [List.cons_append, List.nil_append]
    by_cases h1 : tok = "--list" ∧ st.list = false
    · rw [hoistScan_listFlag st tok ("--kill" :: name :: post) h1,
        hoistScan_listFlag st tok [] h1]
      have ih := scan_kill_hoist { st with list := true } [] post name hk
        (by simp) hname
      simpa using ih
    · by_cases h2 : (tok = "--attach" ∨ tok = "--select") ∧ st.attach = none
      · rw [hoistScan_attachNoName st tok "--kill" (name :: post) h1 h2 (by decide),
          hoistScan_attachNil st tok h1 h2]
        have ih := scan_kill_hoist { st with attach := some none } [] post name hk
          (by simp) hname
        simpa using ih
      · by_cases h3 : tok = "--kill" ∧ st.kill = none
        · exact absurd h3.1 htk
        · rw [hoistScan_keep st tok ("--kill" :: name :: post) h1 h2 h3,
            hoistScan_keep st tok [] h1 h2 h3]
          have ih := scan_kill_hoist st [] post name hk (by simp) hname
          simp only [List.nil_append] at ih
          rw [ih]
          simp [hoistScan_nil]
  | st, tok :: q :: pre2, post, name, hk, hpre, hname => by
    have htk : tok ≠ "--kill" := by
      intro he
      exact hpre (by rw [he]; exact List.mem_cons_self _ _)
    have hpre1 : "--kill" ∉ q :: pre2 := not_mem_tail hpre
    have hpre2 : "--kill" ∉ pre2 := not_mem_tail hpre1
    simp only [List.cons_append]
    by_cases h1 : tok = "--list" ∧ st.list = false
    · rw [hoistScan_listFlag st tok (q :: (pre2 ++ "--kill" :: name :: post)) h1,
        hoistScan_listFlag st tok (q :: pre2) h1]
      have ih := scan_kill_hoist { st with list := true } (q :: pre2) post name hk hpre1 hname
      simpa using ih
    · by_cases h2 : (tok = "--attach" ∨ tok = "--select") ∧ st.attach = none
      · by_cases hn : nameTok q = true
        · rw [hoistScan_attachName st tok q (pre2 ++ "--kill" :: name :: post) h1 h2 hn,
            hoistScan_attachName st tok q pre2 h1 h2 hn]
          have ih := scan_kill_hoist { st with attach := some (some q) } pre2 post name hk
            hpre2 hname
          simpa using ih
        · rw [hoistScan_attachNoName st tok q (pre2 ++ "--kill" :: name :: post) h1 h2
              (Bool.eq_false_iff.mpr hn),
            hoistScan_attachNoName st tok q pre2 h1 h2 (Bool.eq_false_iff.mpr hn)]
          have ih := scan_kill_hoist { st with attach := some none } (q :: pre2) post name hk
            hpre1 hname
          simpa using ih
      · by_cases h3 : tok = "--kill" ∧ st.kill = none
        · exact absurd h3.1 htk
        · rw [hoistScan_keep st tok (q :: (pre2 ++ "--kill" :: name :: post)) h1 h2 h3,
            hoistScan_keep st tok (q :: pre2) h1 h2 h3]
          have ih := scan_kill_hoist st (q :: pre2) post name hk hpre1 hname
          simp only [List.cons_append] at ih
          rw [ih]
          simp
termination_by st pre post name _ _ _ => pre.length
decreasing_by all_goals (simp only [List.length_cons]; omega)

/-- Decomposition for the attach flag and its alias: when the attach mode is
unset, no earlier `--attach` or `--select` occurs, and the token after the
flag passes the session-name heuristic, the scan consumes both tokens,
records the name, and scans the prefix and suffix as if they were adjacent. -/
theorem scan_attach_hoist : ∀ (st : HoistState) (pre post : List String) (name flag : String),
    (flag = "--attach" ∨ flag = "--select") → st.attach = none →
    "--attach" ∉ pre → "--select" ∉ pre → nameTok name = true →
    hoistScan st (pre ++ flag :: name :: post) =
      ((hoistScan { (hoistScan st pre).1 with attach := some (some name) } post).1,
       (hoistScan st pre).2 ++
         (hoistScan { (hoistScan st pre).1 with attach := some (some name) } post).2)
  | st, [], post, name, flag, hf, ha, _, _, hname => by
    have h1 : ¬(flag = "--list" ∧ st.list = false) := by
      rintro ⟨h, -⟩
      rcases hf with hf | hf <;> (rw [hf] at h; exact absurd h (by decide))
    simp only [List.nil_append]
    rw [hoistScan_attachName st flag name post h1 ⟨hf, ha⟩ hname]
    simp [hoistScan_nil]
  | st, [tok], post, name, flag, hf, ha, hpa, hps, hname => by
    have hta : tok ≠ "--attach" := by
      intro he
      exact hpa (by rw [he]; exact List.mem_cons_self _ _)
    have hts : tok ≠ "--select" := by
      intro he
      exact hps (by rw [he]; exact List.mem_cons_self _ _)
    have hflagdash : nameTok flag = false := by
      rcases hf with hf | hf <;> (rw [hf]; decide)
    simp only [List.cons_append, List.nil_append]
    by_cases h1 : tok = "--list" ∧ st.list = false
    · rw [hoistScan_listFlag st tok (flag :: name :: post) h1,
        hoistScan_listFlag st tok [] h1]
      have ih := scan_attach_hoist { st with list := true } [] post name flag hf ha
        (by simp) (by simp) hname
      simpa using ih
    · by_cases h2 : (tok = "--attach" ∨ tok = "--select") ∧ st.attach = none
      · rcases h2.1 with h | h
        · exact absurd h hta
        · exact absurd h hts
      · by_cases h3 : tok = "--kill" ∧ st.kill = none
        · rw [hoistScan_killNoName st tok flag (name :: post) h1 h2 h3 hflagdash,
            hoistScan_killNil st tok h1 h2 h3]
          have ih := scan_attach_hoist { st with kill := some none } [] post name flag hf ha
            (by simp) (by simp) hname
          simpa using ih
        · rw [hoistScan_keep st tok (flag :: name :: post) h1 h2 h3,
            hoistScan_keep st tok [] h1 h2 h3]
          have ih := scan_attach_hoist st [] post name flag hf ha (by simp) (by simp) hname
          simp only [List.nil_append] at ih
          rw [ih]
          simp [hoistScan_nil]
  | st, tok :: q :: pre2, post, name, flag, hf, ha, hpa, hps, hname => by
    have hpa1 : "--attach" ∉ q :: pre2 := not_mem_tail hpa
    have hps1 : "--select" ∉ q :: pre2 := not_mem_tail hps
    have hpa2 : "--attach" ∉ pre2 := not_mem_tail hpa1
    have hps2 : "--select" ∉ pre2 := not_mem_tail hps1
    simp only [List.cons_append]
    by_cases h1 : tok = "--list" ∧ st.list = false
    · rw [hoistScan_listFlag st tok (q :: (pre2 ++ flag :: name :: post)) h1,
        hoistScan_listFlag st tok (q :: pre2) h1]
      have ih := scan_attach_hoist { st with list := true } (q :: pre2) post name flag hf ha
        hpa1 hps1 hname
      simpa using ih
    · by_cases h2 : (tok = "--attach" ∨ tok = "--select") ∧ st.attach = none
      · rcases h2.1 with h | h
        · exact absurd h (fun he => hpa (by rw [he]; exact List.mem_cons_self _ _))
        · exact absurd h (fun he => hps (by rw [he]; exact List.mem_cons_self _ _))
      · by_cases h3 : tok = "--kill" ∧ st.kill = none
        · by_cases hn : nameTok q = true
          · rw [hoistScan_killName st tok q (pre2 ++ flag :: name :: post) h1 h2 h3 hn,
              hoistScan_killName st tok q pre2 h1 h2 h3 hn]
            have ih := scan_attach_hoist { st with kill := some (some q) } pre2 post name flag
              hf ha hpa2 hps2 hname
            simpa using ih
          · rw [hoistScan_killNoName st tok q (pre2 ++ flag :: name :: post) h1 h2 h3
                (Bool.eq_false_iff.mpr hn),
              hoistScan_killNoName st tok q pre2 h1 h2 h3 (Bool.eq_false_iff.mpr hn)]
            have ih := scan_attach_hoist { st with kill := some none } (q :: pre2) post name
              flag hf ha hpa1 hps1 hname
            simpa using ih
        · rw [hoistScan_keep st tok (q :: (pre2 ++ flag :: name :: post)) h1 h2 h3,
            hoistScan_keep st tok (q :: pre2) h1 h2 h3]
          have ih := scan_attach_hoist st (q :: pre2) post name flag hf ha hpa1 hps1 hname
          simp only [List.cons_append] at ih
          rw [ih]
          simp
termination_by st pre post name flag _ _ _ _ _ => pre.length
decreasing_by all_goals (simp only [List.length_cons]; omega)

/-- C8: for every session name accepted by the heuristic (no leading dash, no
`@`, no `:` — in particular any name without `-`, `@`, `:`), if the kill flag
(or the attach flag or its alias) appears immediately before that name with
no earlier occurrence of the same mode's flags and that mode still unset,
the hoister records exactly that name as the mode's explicit target and
removes both tokens, scanning the rest of the vector as if they were absent. -/
theorem c8_flag_name_recorded (st : HoistState) (pre post : List String) (name flag : String)
    (hflag : flag = "--kill" ∨ flag = "--attach" ∨ flag = "--select")
    (hkill : flag = "--kill" → st.kill = none ∧ "--kill" ∉ pre)
    (hatt : flag = "--attach" ∨ flag = "--select" →
      st.attach = none ∧ "--attach" ∉ pre ∧ "--select" ∉ pre)
    (hname : nameTok name = true) :
    hoistScan st (pre ++ flag :: name :: post) =
      ((hoistScan (setMode (hoistScan st pre).1 flag name) post).1,
       (hoistScan st pre).2 ++ (hoistScan (setMode (hoistScan st pre).1 flag name) post).2) ∧
    modeGet (hoistScan st (pre ++ flag :: name :: post)).1 flag = some (some name) := by
  rcases hflag with hf | hf
  · obtain ⟨hk, hp⟩ := hkill hf
    subst hf
    have hdec := scan_kill_hoist st pre post name hk hp hname
    simp only [setMode, modeGet, if_pos rfl]
    refine ⟨hdec, ?_⟩
    rw [hdec]
    exact scan_pres_kill _ post (some name) rfl
  · obtain ⟨ha, hpa, hps⟩ := hatt hf
    have hfk : flag ≠ "--kill" := by
      rcases hf with hf | hf <;> (rw [hf]; decide)
    have hdec := scan_attach_hoist st pre post name flag hf ha hpa hps hname
    simp only [setMode, modeGet, if_neg hfk]
    refine ⟨hdec, ?_⟩
    rw [hdec]
    exact scan_pres_attach _ post (some name) rfl

/-- Witness for C8 at a concrete input: `["user@host", "--kill", "work"]`
records `"work"` as the kill target and cleans both tokens away. -/
theorem c8_flag_name_recorded_witness :
    ((("--kill" : String) = "--kill" ∨ ("--kill" : String) = "--attach" ∨
        ("--kill" : String) = "--select") ∧
      nameTok "work" = true) ∧
    (hoistScan ⟨false, none, none⟩ (["user@host"] ++ "--kill" :: "work" :: []) =
      ((hoistScan (setMode (hoistScan ⟨false, none, none⟩ ["user@host"]).1 "--kill" "work")
          []).1,
       (hoistScan ⟨false, none, none⟩ ["user@host"]).2 ++
         (hoistScan (setMode (hoistScan ⟨false, none, none⟩ ["user@host"]).1 "--kill" "work")
           []).2) ∧
     modeGet (hoistScan ⟨false, none, none⟩
        (["user@host"] ++ "--kill" :: "work" :: [])).1 "--kill" = some (some "work")) :=
  ⟨⟨Or.inl rfl, by decide⟩,
    c8_flag_name_recorded ⟨false, none, none⟩ ["user@host"] [] "work" "--kill"
      (Or.inl rfl) (fun _ => ⟨rfl, by decide⟩) (fun h => absurd h (by decide))
      (by decide)⟩

/-! ### C10: the empty string is accepted as an explicit session name -/

/-- C10: an empty-string token immediately after the attach flag, its alias
`--select`, or the kill flag is consumed and recorded as that mode's
explicit target (the empty string passes the name heuristic: it neither
starts with a dash nor contains `@` or `:`), even though the empty string
is not a valid Session Identifier under the data model. -/
theorem c10_empty_name_recorded (st : HoistState) (rest : List String) (flag : String)
    (hflag : flag = "--attach" ∨ flag = "--select" ∨ flag = "--kill")
    (hatt : flag = "--attach" ∨ flag = "--select" → st.attach = none)
    (hkill : flag = "--kill" → st.kill = none) :
    hoistScan st (flag :: "" :: rest) = hoistScan (setMode st flag "") rest ∧
    modeGet (hoistScan st (flag :: "" :: rest)).1 flag = some (some "") ∧
    nameTok "" = true ∧ ¬ validSessionId "" := by
  have hvalid : ¬ validSessionId "" := by
    rintro ⟨h, -⟩
    exact h rfl
  rcases hflag with hf | hf | hf
  · subst hf
    have ha := hatt (Or.inl rfl)
    have h1 : ¬(("--attach" : String) = "--list" ∧ st.list = false) := by
      rintro ⟨h, -⟩; exact absurd h (by decide)
    have heq := hoistScan_attachName st "--attach" "" rest h1 ⟨Or.inl rfl, ha⟩ (by decide)
    simp only [setMode, modeGet, if_neg (show ¬("--attach" : String) = "--kill" by decide)]
    refine ⟨heq, ?_, by decide, hvalid⟩
    rw [heq]
    exact scan_pres_attach _ rest (some "") rfl
  · subst hf
    have ha := hatt (Or.inr rfl)
    have h1 : ¬(("--select" : String) = "--list" ∧ st.list = false) := by
      rintro ⟨h, -⟩; exact absurd h (by decide)
    have heq := hoistScan_attachName st "--select" "" rest h1 ⟨Or.inr rfl, ha⟩ (by decide)
    simp only [setMode, modeGet, if_neg (show ¬("--select" : String) = "--kill" by decide)]
    refine ⟨heq, ?_, by decide, hvalid⟩
    rw [heq]
    exact scan_pres_attach _ rest (some "") rfl
  · subst hf
    have hk := hkill rfl
    have h1 : ¬(("--kill" : String) = "--list" ∧ st.list = false) := by
      rintro ⟨h, -⟩; exact absurd h (by decide)
    have h2 : ¬((("--kill" : String) = "--attach" ∨ ("--kill" : String) = "--select") ∧
        st.attach = none) := by
      rintro ⟨h | h, -⟩ <;> exact absurd h (by decide)
    have heq := hoistScan_killName st "--kill" "" rest h1 h2 ⟨rfl, hk⟩ (by decide)
    simp only [setMode, modeGet, if_pos rfl]
    refine ⟨heq, ?_, by decide, hvalid⟩
    rw [heq]
    exact scan_pres_kill _ rest (some "") rfl

/-- Witness for C10 at the concrete trailing vector `[flag, "", "user@host"]`
for each of the three flags, starting from all-unset mode fields. -/
theorem c10_empty_name_recorded_witness :
    ((⟨false, none, none⟩ : HoistState).attach = none ∧
      (⟨false, none, none⟩ : HoistState).kill = none) ∧
    (hoistScan ⟨false, none, none⟩ ("--attach" :: "" :: ["user@host"]) =
      hoistScan (setMode ⟨false, none, none⟩ "--attach" "") ["user@host"] ∧
     modeGet (hoistScan ⟨false, none, none⟩
        ("--attach" :: "" :: ["user@host"])).1 "--attach" = some (some "") ∧
     nameTok "" = true ∧ ¬ validSessionId "") ∧
    (hoistScan ⟨false, none, none⟩ ("--select" :: "" :: ["user@host"]) =
      hoistScan (setMode ⟨false, none, none⟩ "--select" "") ["user@host"] ∧
     modeGet (hoistScan ⟨false, none, none⟩
        ("--select" :: "" :: ["user@host"])).1 "--select" = some (some "") ∧
     nameTok "" = true ∧ ¬ validSessionId "") ∧
    (hoistScan ⟨false, none, none⟩ ("--kill" :: "" :: ["user@host"]) =
      hoistScan (setMode ⟨false, none, none⟩ "--kill" "") ["user@host"] ∧
     modeGet (hoistScan ⟨false, none, none⟩
        ("--kill" :: "" :: ["user@host"])).1 "--kill" = some (some "") ∧
     nameTok "" = true ∧ ¬ validSessionId "") :=
  ⟨⟨rfl, rfl⟩,
    c10_empty_name_recorded ⟨false, none, none⟩ ["user@host"] "--attach"
      (Or.inl rfl) (fun _ => rfl) (fun h => absurd h (by decide)),
    c10_empty_name_recorded ⟨false, none, none⟩ ["user@host"] "--select"
      (Or.inr (Or.inl rfl)) (fun _ => rfl) (fun h => absurd h (by decide)),
    c10_empty_name_recorded ⟨false, none, none⟩ ["user@host"] "--kill"
      (Or.inr (Or.inr rfl)) (fun h => absurd h (by decide)) (fun _ => rfl)⟩

/-! ### C5: shell-quoting round trip -/

theorem ds_true_quote (k : List Char) :
    decodeShellChars ('\'' :: k) true = decodeShellChars k false := by
  rw [decodeShellChars.eq_3, if_pos rfl]

theorem ds_true_other (c : Char) (k : List Char) (h : ¬c = '\'') :
    decodeShellChars (c :: k) true = (decodeShellChars k true).map (c :: ·) := by
  rw [decodeShellChars.eq_3, if_neg h]

theorem ds_false_quote (k : List Char) :
    decodeShellChars ('\'' :: k) false = decodeShellChars k true := by
  cases k with
  | nil => rw [decodeShellChars.eq_4, if_pos rfl]
  | cons d k2 => rw [decodeShellChars.eq_5, if_pos rfl]

theorem ds_false_backslash (d : Char) (k : List Char) :
    decodeShellChars ('\\' :: d :: k) false = (decodeShellChars k false).map (d :: ·) := by
  rw [decodeShellChars.eq_5, if_neg (by decide), if_pos rfl]

theorem escChar_quote : escChar '\'' = ['\'', '\\', '\'', '\''] := rfl

theorem escChar_other (c : Char) (h : ¬c = '\'') : escChar c = [c] := by
  unfold escChar
  rw [if_neg h]

/-- Decoding the escaped body followed by the closing quote, starting inside
single quotes, recovers the body and continues outside quotes. -/
theorem decode_escBody : ∀ (s k : List Char),
    decodeShellChars (s.flatMap escChar ++ '\'' :: k) true =
      (decodeShellChars k false).map (s ++ ·)
  | [], k => by
    simp only [List.flatMap_nil, List.nil_append, ds_true_quote]
    cases decodeShellChars k false <;> simp
  | c :: s, k => by
    by_cases hc : c = '\''
    · subst hc
      rw [List.flatMap_cons, escChar_quote, List.append_assoc]
      simp only [List.cons_append, List.nil_append]
      rw [ds_true_quote, ds_false_backslash, ds_false_quote, decode_escBody s k]
      cases decodeShellChars k false <;> simp
    · rw [List.flatMap_cons, escChar_other c hc, List.append_assoc]
      simp only [List.cons_append, List.nil_append]
      rw [ds_true_other c _ hc, decode_escBody s k]
      cases decodeShellChars k false <;> simp

/-- C5: Shell-Quoting wraps its input in single quotes, turning each embedded
single quote into the four-character sequence `'\''` and no other character;
decoding the result with the single-quote-aware shell-token decoder yields
back exactly the input, for every string including the empty one. -/
theorem c5_shell_escape_roundtrip (s : String) :
    decodeShellToken (shell_escape s) = some s ∧
    shell_escape s = ⟨'\'' :: (s.data.flatMap escChar ++ ['\''])⟩ ∧
    ∀ c : Char, escChar c = if c = '\'' then ['\'', '\\', '\'', '\''] else [c] := by
  refine ⟨?_, rfl, fun c => rfl⟩
  have hbody : decodeShellChars (shellEscapeChars s.data) false = some s.data := by
    unfold shellEscapeChars
    rw [ds_false_quote, decode_escBody s.data []]
    simp [decodeShellChars]
  unfold decodeShellToken shell_escape
  rw [show (⟨shellEscapeChars s.data⟩ : String).data = shellEscapeChars s.data from rfl,
    hbody]
  rfl

/-! ### C2: TTY-flag stripping for list and kill -/

theorem dropLast_snoc (l : List String) (a : String) : (l ++ [a]).dropLast = l := by
  simp

theorem getLast?_snoc (l : List String) (a : String) : (l ++ [a]).getLast? = some a := by
  simp

theorem not_mem_stripTty_t (l : List String) : "-t" ∉ stripTty l := by
  intro h
  have := (List.mem_filter.mp h).2
  simp at this

theorem not_mem_stripTty_tt (l : List String) : "-tt" ∉ stripTty l := by
  intro h
  have := (List.mem_filter.mp h).2
  simp at this

/-- C2 counterexample: the modular Kill operation (src/tmux.rs
`kill_remote_session`, which delegates to `exec_remote_command`) appends the
remote command string without stripping TTY flags — with base SSH vector
`["-t", "user@host"]` the outbound vector still contains `"-t"`. -/
theorem c2_kill_tty_counterexample :
    "-t" ∈ kill_remote_session_args
      ⟨"default", false, "tmux", "", "ssh", ["-t", "user@host"], "alice", false⟩
      "work" := by
  decide

/-- C2 amended: the List discovery vector (capturing executor) and the legacy
main-binary kill vector strip every TTY flag before the single
remote-command string is appended as the final element; the modular Kill
operation appends the remote command string as the final element but leaves
the base SSH argument vector — including any TTY flags — unchanged. -/
theorem c2_tty_stripping_amended (cfg : Config) (target : String) :
    ("-t" ∉ (execRemoteCaptureArgs cfg (listCmdString cfg.tmux_bin)).dropLast ∧
     "-tt" ∉ (execRemoteCaptureArgs cfg (listCmdString cfg.tmux_bin)).dropLast ∧
     (execRemoteCaptureArgs cfg (listCmdString cfg.tmux_bin)).getLast? =
       some (listCmdString cfg.tmux_bin)) ∧
    ("-t" ∉ (mainKillArgs cfg.ssh_args cfg.tmux_bin target).dropLast ∧
     "-tt" ∉ (mainKillArgs cfg.ssh_args cfg.tmux_bin target).dropLast ∧
     (mainKillArgs cfg.ssh_args cfg.tmux_bin target).getLast? =
       some (killCmdString cfg.tmux_bin target)) ∧
    kill_remote_session_args cfg target =
      cfg.ssh_args ++ [killCmdString cfg.tmux_bin target] := by
  unfold execRemoteCaptureArgs mainKillArgs kill_remote_session_args execRemoteCommandArgs
  simp only [dropLast_snoc, getLast?_snoc]
  exact ⟨⟨not_mem_stripTty_t _, not_mem_stripTty_tt _, trivial⟩,
    ⟨not_mem_stripTty_t _, not_mem_stripTty_tt _, trivial⟩, trivial⟩

/-! ### C3 and C4: discovery-query failure classification -/

/-- C3 counterexample: a discovery query whose remote process completes with
exit status 127 and empty stdout is treated as an empty Session List, but
the installation hint is not reported (the boolean component records hint
emission): the modular discovery query returns `(Ok [], false)`, not an
empty result accompanied by the hint. -/
theorem c3_exit127_counterexample :
    list_remote_sessions_mod
      ⟨"default", false, "tmux", "", "ssh", ["user@host"], "alice", false⟩
      (.completed ⟨some 127, "", "bash: tmux: command not found"⟩) =
    (.ok [], false) := rfl

/-- C3 amended: the modular discovery query never inspects the exit status of
a completed process: when the remote process exits with status 127 it
returns the sessions parsed from captured stdout — the empty Session List
when stdout is empty — and emits no installation hint; it is not fatal.
(The hint branch fires only when spawning itself fails with a message
containing "127" or "not found".) -/
theorem c3_exit127_amended (cfg : Config) (out : ProcessOutput)
    (h127 : out.code = some 127) :
    list_remote_sessions_mod cfg (.completed out) =
      (.ok (parseSessions out.stdout), false) ∧
    parseSessions "" = [] := by
  exact ⟨rfl, by decide⟩

/-- Witness for the amended C3 at exit status 127 with empty stdout. -/
theorem c3_exit127_witness :
    ((⟨some 127, "", "bash: tmux: command not found"⟩ : ProcessOutput).code =
      some 127) ∧
    (list_remote_sessions_mod
        ⟨"default", false, "tmux", "", "ssh", ["user@host"], "alice", false⟩
        (.completed ⟨some 127, "", "bash: tmux: command not found"⟩) =
      (.ok (parseSessions
        (⟨some 127, "", "bash: tmux: command not found"⟩ : ProcessOutput).stdout),
        false) ∧
     parseSessions "" = []) :=
  ⟨rfl, c3_exit127_amended
    ⟨"default", false, "tmux", "", "ssh", ["user@host"], "alice", false⟩
    ⟨some 127, "", "bash: tmux: command not found"⟩ rfl⟩

/-- C4: a discovery query whose spawned process completes with a non-zero
exit status other than 127 raises no fatal error: both the modular and the
legacy discovery queries return the sessions parsed from captured stdout
(the empty list when that output is empty) and emit no hint. -/
theorem c4_nonzero_non127_tolerated (cfg : Config) (sshProg : String)
    (out : ProcessOutput) (c : Int) (hc : out.code = some c) (h0 : c ≠ 0)
    (h127 : c ≠ 127) :
    list_remote_sessions_mod cfg (.completed out) =
      (.ok (parseSessions out.stdout), false) ∧
    list_remote_sessions_main sshProg (.completed out) =
      (.ok (parseSessions out.stdout), false) ∧
    (out.stdout = "" → parseSessions out.stdout = []) := by
  have hne : ¬(out.code = some 127) := by
    rw [hc]
    simp [h127]
  refine ⟨rfl, ?_, fun he => by rw [he]; decide⟩
  have hstep : list_remote_sessions_main sshProg (.completed out) =
      if out.code = some 127 then (.error "remote tmux not found (exit 127)", true)
      else (.ok (parseSessions out.stdout), false) := rfl
  rw [hstep, if_neg hne]

/-- Witness for C4 at exit status 1 with empty stdout. -/
theorem c4_nonzero_non127_witness :
    ((⟨some 1, "", "no server running"⟩ : ProcessOutput).code = some (1 : Int) ∧
      (1 : Int) ≠ 0 ∧ (1 : Int) ≠ 127) ∧
    (list_remote_sessions_mod
        ⟨"default", false, "tmux", "", "ssh", ["user@host"], "alice", false⟩
        (.completed ⟨some 1, "", "no server running"⟩) =
      (.ok (parseSessions
        (⟨some 1, "", "no server running"⟩ : ProcessOutput).stdout), false) ∧
     list_remote_sessions_main "ssh"
        (.completed ⟨some 1, "", "no server running"⟩) =
      (.ok (parseSessions
        (⟨some 1, "", "no server running"⟩ : ProcessOutput).stdout), false) ∧
     ((⟨some 1, "", "no server running"⟩ : ProcessOutput).stdout = "" →
      parseSessions (⟨some 1, "", "no server running"⟩ : ProcessOutput).stdout = [])) :=
  ⟨⟨rfl, by decide, by decide⟩,
    c4_nonzero_non127_tolerated
      ⟨"default", false, "tmux", "", "ssh", ["user@host"], "alice", false⟩ "ssh"
      ⟨some 1, "", "no server running"⟩ 1 rfl (by decide) (by decide)⟩

/-! ### C7: the session-create command builder -/

/-- C7: building the session-create command is total (it has no failure
outcome) and produces exactly the vector
`[tmux_bin, "new-session", "-A", "-s", name]` followed by the shell-lexed
extra arguments when the extra-arguments string is non-blank and lexes
successfully; when the string is blank, or when lexing fails, the extra
arguments are omitted and the five-element prefix alone is returned. -/
theorem c7_build_session_command (lex : String → Except String (List String))
    (cfg : Config) (name : String) (hname : name ≠ "") :
    build_session_command lex cfg name =
      [cfg.tmux_bin, "new-session", "-A", "-s", name] ++
        (if !(rustTrim cfg.tmux_args).isEmpty then
          match lex cfg.tmux_args with
          | .ok extra => extra
          | .error _ => []
        else []) := by
  unfold build_session_command
  cases htrim : !(rustTrim cfg.tmux_args).isEmpty with
  | false => simp [htrim]
  | true =>
    cases hl : lex cfg.tmux_args with
    | ok extra => simp [htrim, hl]
    | error e => simp [htrim, hl]

/-- Witness for C7: a non-blank extra-arguments string whose lexing fails
still yields exactly the five-element prefix. -/
theorem c7_build_session_command_witness :
    ("work" : String) ≠ "" ∧
    build_session_command failingLex
      ⟨"default", false, "tmux", "-d -x (", "ssh", [], "alice", false⟩ "work" =
      ["tmux", "new-session", "-A", "-s", "work"] ++
        (if !(rustTrim (⟨"default", false, "tmux", "-d -x (", "ssh", [], "alice",
            false⟩ : Config).tmux_args).isEmpty then
          match failingLex (⟨"default", false, "tmux", "-d -x (", "ssh", [], "alice",
            false⟩ : Config).tmux_args with
          | .ok extra => extra
          | .error _ => []
        else []) :=
  ⟨by decide, c7_build_session_command failingLex
    ⟨"default", false, "tmux", "-d -x (", "ssh", [], "alice", false⟩ "work"
    (by decide)⟩

/-! ### C9: interactive selection -/

/-- C9: for every action label, non-empty Session List and input line,
Interactive Selection returns the first Session Identifier on trimmed-empty
input; treats a parse failure as index 0 and rejects it; rejects index 0 and
any index above the list length with the invalid-selection error; and
otherwise returns the Session Identifier at the given 1-based index (the
second conjunct ties the returned default-read to the actual first
element). -/
theorem c9_interactive_selection (action : String) (sessions : List String)
    (input : String) (hne : sessions ≠ []) :
    prompt_user_to_select_session action sessions input =
      (if (rustTrim input).isEmpty then Except.ok (sessions.getD 0 "")
       else
        match parseUsize (rustTrim input) with
        | none => Except.error "invalid selection"
        | some n =>
          if n = 0 ∨ sessions.length < n then Except.error "invalid selection"
          else Except.ok (sessions.getD (n - 1) "")) ∧
    sessions.get? 0 = some (sessions.getD 0 "") := by
  constructor
  · unfold prompt_user_to_select_session
    cases hemp : (rustTrim input).isEmpty with
    | true =>
      have hlen : 0 < sessions.length := List.length_pos.mpr hne
      simp only [hemp, if_true]
      rw [if_neg (by rintro (h | h) <;> omega)]
    | false =>
      simp only [hemp, Bool.false_eq_true, if_false]
      cases hp : parseUsize (rustTrim input) with
      | none => simp
      | some n => simp
  · cases sessions with
    | nil => exact absurd rfl hne
    | cons a l => rfl

/-- Witness for C9 at the spec scenario: sessions `["a","b","c"]`, empty
input selects `"a"`, input `"5"` is an invalid selection. -/
theorem c9_interactive_selection_witness :
    ((["a", "b", "c"] : List String) ≠ []) ∧
    (prompt_user_to_select_session "attach" ["a", "b", "c"] "" =
      (if (rustTrim "").isEmpty then Except.ok ((["a", "b", "c"] : List String).getD 0 "")
       else
        match parseUsize (rustTrim "") with
        | none => Except.error "invalid selection"
        | some n =>
          if n = 0 ∨ (["a", "b", "c"] : List String).length < n then
            Except.error "invalid selection"
          else Except.ok ((["a", "b", "c"] : List String).getD (n - 1) "")) ∧
     (["a", "b", "c"] : List String).get? 0 =
       some ((["a", "b", "c"] : List String).getD 0 "")) ∧
    prompt_user_to_select_session "attach" ["a", "b", "c"] "" = .ok "a" ∧
    prompt_user_to_select_session "attach" ["a", "b", "c"] "5" =
      .error "invalid selection" :=
  ⟨by decide, c9_interactive_selection "attach" ["a", "b", "c"] "" (by decide),
    rfl, rfl⟩

end Vigil

/-! Sanity checks on concrete inputs (spec §8 scenarios). -/

example : Vigil.hoist ⟨false, none, none⟩ ["user@host", "--list"] =
    (⟨true, none, none⟩, ["-t", "user@host"]) := by decide

example : Vigil.hoist ⟨false, none, none⟩ ["--attach", "work", "user@host"] =
    (⟨false, some (some "work"), none⟩, ["-t", "user@host"]) := by decide

example : Vigil.hoist ⟨false, none, none⟩ ["--list", "--list"] =
    (⟨true, none, none⟩, ["-t", "--list"]) := by decide

example : Vigil.shell_escape "a'b" = "'a'\\''b'" := by decide

example : Vigil.decodeShellToken (Vigil.shell_escape "a'b") = some "a'b" := by decide
